import Mathlib

/-!
Verification of the labeled-axis scalar accessor (`.at`-style access) and the
parquet engine-selection shim of this repository.

The scalar accessor itself is not among the source files (only its test suite
`pandas/tests/indexing/test_at.py` is), so the accessor, the axes, the tabular
store and the general label indexer are modelled from the specification
(sections 3, 4 and 7 of spec.md).  The parquet shim (`pandas/io/parquet.py`)
is present in the sources and is embedded from that file directly.
-/

namespace PandasSpec

/-- Modelled from the spec: labels are a closed tagged union (integer | text);
equality holds only within the same tag, never across tags (spec section 9,
"Duck-typed label equality": cross-tag comparisons are always unequal, never
coerced). -/
inductive Label where
  | int (n : Int)
  | str (s : String)
deriving DecidableEq, Repr

/-- Modelled from the spec: the textual representation of a label, used in
NotFound error messages ("message must echo the label", spec section 7). -/
def reprLabel : Label → String
  | .int n => toString n
  | .str s => s

/-- Modelled from the spec: stored scalar values.  Temporal values are either
naive (no timezone) or timezone-aware, to express the timezone-widening rule
of spec section 4.2. -/
inductive Value where
  | intV (n : Int)
  | strV (s : String)
  | naiveT (t : Int)
  | awareT (t : Int) (offset : Int)
deriving DecidableEq, Repr

/-- Modelled from the spec: the per-column declared value kind
(spec section 3: "a scalar value of dynamically-typed (per-column) kind"). -/
inductive ColKind where
  | intKind
  | strKind
  | naiveTemporal
  | objectKind
deriving DecidableEq, Repr

/-- Modelled from the spec: whether a column kind can represent a value
without loss of fidelity (spec section 4.2). The generic/object kind holds
anything; a naive temporal column cannot hold a timezone-aware value. -/
def canRepresent : ColKind → Value → Bool
  | .intKind, .intV _ => true
  | .strKind, .strV _ => true
  | .naiveTemporal, .naiveT _ => true
  | .objectKind, _ => true
  | _, _ => false

/-- Modelled from the spec: kind widening on assignment (spec section 4.2: if
the existing column kind cannot represent the new value without loss of
fidelity, the column is promoted to the generic/object kind). -/
def widenKind (k : ColKind) (v : Value) : ColKind :=
  if canRepresent k v then k else .objectKind

/-- Modelled from the spec: the three error kinds of spec section 7.
`invalidScalarAccess` carries the message "Invalid call for scalar access";
`notFound` carries a message echoing the missing label; `fatal` marks the
out-of-range positions that spec section 4.2 declares unreachable through the
public contract. -/
inductive AccessError where
  | invalidScalarAccess (msg : String)
  | notFound (msg : String)
  | fatal
deriving DecidableEq, Repr

/-- The message of every `InvalidScalarAccess` error (test_at.py line 38). -/
def invalidMsg : String := "Invalid call for scalar access"

/-- Modelled from the spec: all positions (counting from `i`) at which the
axis carries the given label.  This is the shared axis-resolution primitive of
spec section 9 ("two front-ends over one shared Axis-resolution primitive"). -/
def positionsFrom (axis : List Label) (l : Label) (i : Nat) : List Nat :=
  match axis with
  | [] => []
  | a :: rest =>
      if a = l then i :: positionsFrom rest l (i + 1)
      else positionsFrom rest l (i + 1)

/-- Modelled from the spec: all positions at which the axis carries the label
(`Axis.position_of` resolution, spec section 4.1, before the uniqueness
policy of the calling front-end is applied). -/
def positionsOf (axis : List Label) (l : Label) : List Nat :=
  positionsFrom axis l 0

/-- Modelled from the spec: the 2-D tabular store of spec section 3 — a row
axis, a column axis, per-column declared kinds, and row-major cells addressed
by integer position. -/
structure Table where
  rowLabels : List Label
  colLabels : List Label
  colKinds : List ColKind
  cells : List (List Value)
deriving DecidableEq, Repr

/-- Modelled from the spec: the 1-D (series) tabular store of spec section 3 —
one axis, one declared value kind, values addressed by integer position. -/
structure Series where
  labels : List Label
  kind : ColKind
  values : List Value
deriving DecidableEq, Repr

/-- The store invariant of spec section 3: axis lengths equal the stored
dimensions. -/
def Wellformed (t : Table) : Prop :=
  t.cells.length = t.rowLabels.length ∧
  (∀ row ∈ t.cells, row.length = t.colLabels.length) ∧
  t.colKinds.length = t.colLabels.length

/-- The 1-D store invariant: as many values as labels. -/
def WellformedS (s : Series) : Prop :=
  s.values.length = s.labels.length

/-- Position-addressed read of the 2-D store (`TabularStore.get`). -/
def getCell (cells : List (List Value)) (pr pc : Nat) : Option Value :=
  match cells[pr]? with
  | some row => row[pc]?
  | none => none

/-- Position-addressed write of the 2-D store. Out-of-range positions leave
the store unchanged; spec section 4.2 declares them unreachable through the
accessor's public contract. -/
def setCell (cells : List (List Value)) (pr pc : Nat) (v : Value) :
    List (List Value) :=
  match cells[pr]? with
  | some row => cells.set pr (row.set pc v)
  | none => cells

/-- Modelled from the spec: `TabularStore.set` (spec section 4.2) — replace
the scalar at the resolved position and widen the target column's declared
kind when it cannot represent the new value. -/
def storeSet (t : Table) (pr pc : Nat) (v : Value) : Table :=
  { t with
    cells := setCell t.cells pr pc v
    colKinds := t.colKinds.set pc (widenKind (t.colKinds.getD pc .objectKind) v) }

/-- Modelled from the spec: the selector shapes a caller can hand the scalar
accessor — a single label (the only valid shape), a list of labels, or a
slice/full-axis selector (spec sections 4.4 and 8, P5). -/
inductive Selector where
  | label (l : Label)
  | list (ls : List Label)
  | slice
deriving DecidableEq, Repr

/-- Whether a selector is a single scalar label. -/
def Selector.isScalar : Selector → Bool
  | .label _ => true
  | _ => false

/-- Modelled from the spec: the General Label Indexer's lookup on a table
(spec section 4.3): raises NotFound echoing the offending label when a label
is absent from its axis, otherwise yields every cell the label pair selects
(possibly several, for duplicate labels). -/
def locLookup (t : Table) (r c : Label) : Except AccessError (List Value) :=
  match positionsOf t.rowLabels r, positionsOf t.colLabels c with
  | [], _ => .error (.notFound (reprLabel r))
  | _ :: _, [] => .error (.notFound (reprLabel c))
  | rps, cps =>
      .ok (rps.flatMap fun pr => cps.filterMap fun pc => getCell t.cells pr pc)

/-- Modelled from the spec: the General Label Indexer's lookup on a series. -/
def locLookupS (s : Series) (l : Label) : Except AccessError (List Value) :=
  match positionsOf s.labels l with
  | [] => .error (.notFound (reprLabel l))
  | ps => .ok (ps.filterMap fun p => s.values[p]?)

/-- Modelled from the spec: the Scalar Accessor's validation and resolution on
a table (spec section 4.4).  Arity/shape check first (exactly two scalar
labels, else InvalidScalarAccess); then each axis in turn: an absent label is
NotFound echoing the label, via the same error construction the general
indexer uses; a label pair that does not pick out exactly one cell (duplicate
matches on either axis) is rejected as InvalidScalarAccess (spec sections 4.4
step 2 and 9, duplicate-column scenario of section 8). -/
def atResolve (t : Table) (sels : List Selector) :
    Except AccessError (Nat × Nat) :=
  match sels with
  | [.label r, .label c] =>
      match positionsOf t.rowLabels r, positionsOf t.colLabels c with
      | [], _ => .error (.notFound (reprLabel r))
      | _ :: _, [] => .error (.notFound (reprLabel c))
      | [pr], [pc] => .ok (pr, pc)
      | _, _ => .error (.invalidScalarAccess invalidMsg)
  | _ => .error (.invalidScalarAccess invalidMsg)

/-- Modelled from the spec: scalar-accessor read on a table (spec section 4.4,
read contract): validate and resolve, then read the store at the resolved
positions. -/
def atGet (t : Table) (sels : List Selector) : Except AccessError Value :=
  match atResolve t sels with
  | .error e => .error e
  | .ok (pr, pc) =>
      match getCell t.cells pr pc with
      | some v => .ok v
      | none => .error .fatal

/-- Modelled from the spec: scalar-accessor write on a table (spec section
4.4, write contract): identical validation and resolution as the read path;
on success write through the store, on failure raise the same error as the
read path with no mutation. -/
def atSet (t : Table) (sels : List Selector) (v : Value) :
    Except AccessError Table :=
  match atResolve t sels with
  | .error e => .error e
  | .ok (pr, pc) => .ok (storeSet t pr pc v)

/-- The state of the store after a scalar-accessor write: the written store on
success, the untouched store on failure (atomicity, spec section 4.4). -/
def atSetD (t : Table) (sels : List Selector) (v : Value) : Table :=
  match atSet t sels v with
  | .ok t2 => t2
  | .error _ => t

/-- Modelled from the spec: the Scalar Accessor's validation and resolution on
a series (arity one). -/
def atResolveS (s : Series) (sels : List Selector) : Except AccessError Nat :=
  match sels with
  | [.label l] =>
      match positionsOf s.labels l with
      | [] => .error (.notFound (reprLabel l))
      | [p] => .ok p
      | _ => .error (.invalidScalarAccess invalidMsg)
  | _ => .error (.invalidScalarAccess invalidMsg)

/-- Modelled from the spec: scalar-accessor read on a series. -/
def atGetS (s : Series) (sels : List Selector) : Except AccessError Value :=
  match atResolveS s sels with
  | .error e => .error e
  | .ok p =>
      match s.values[p]? with
      | some v => .ok v
      | none => .error .fatal

/-- Modelled from the spec: scalar-accessor write on a series, with the kind
widening of spec section 4.2. -/
def atSetS (s : Series) (sels : List Selector) (v : Value) :
    Except AccessError Series :=
  match atResolveS s sels with
  | .error e => .error e
  | .ok p =>
      .ok { s with values := s.values.set p v, kind := widenKind s.kind v }

/- ### Resolution lemmas -/

theorem positionsFrom_eq_nil {axis : List Label} {l : Label} :
    ∀ i, positionsFrom axis l i = [] ↔ l ∉ axis := by
  induction axis with
  | nil => intro i; simp [positionsFrom]
  | cons a rest ih =>
      intro i
      by_cases h : a = l
      · subst h
        simp [positionsFrom]
      · simp [positionsFrom, h, ih (i + 1), Ne.symm h]

theorem positionsOf_eq_nil {axis : List Label} {l : Label} :
    positionsOf axis l = [] ↔ l ∉ axis :=
  positionsFrom_eq_nil 0

theorem mem_positionsFrom_lt {axis : List Label} {l : Label} :
    ∀ i p, p ∈ positionsFrom axis l i → p < i + axis.length := by
  induction axis with
  | nil => intro i p hp; simp [positionsFrom] at hp
  | cons a rest ih =>
      intro i p hp
      simp only [positionsFrom] at hp
      by_cases h : a = l
      · simp only [if_pos h, List.mem_cons] at hp
        rcases hp with rfl | hp
        · simp [Nat.lt_add_of_pos_right]
        · have := ih (i + 1) p hp
          simp only [List.length_cons]
          omega
      · simp only [if_neg h] at hp
        have := ih (i + 1) p hp
        simp only [List.length_cons]
        omega

theorem mem_positionsOf_lt {axis : List Label} {l : Label} {p : Nat}
    (hp : p ∈ positionsOf axis l) : p < axis.length := by
  have := mem_positionsFrom_lt 0 p hp
  omega

/- ### Store lemmas -/

theorem exists_row_of_wf {t : Table} (hwf : Wellformed t) {pr : Nat}
    (hpr : pr < t.rowLabels.length) :
    ∃ row, t.cells[pr]? = some row ∧ row.length = t.colLabels.length := by
  obtain ⟨hlen, hrows, _⟩ := hwf
  have h : pr < t.cells.length := by omega
  exact ⟨t.cells[pr], List.getElem?_eq_getElem h, hrows _ (List.getElem_mem h)⟩

theorem getCell_eq_of_wf {t : Table} (hwf : Wellformed t) {pr pc : Nat}
    (hpr : pr < t.rowLabels.length) (hpc : pc < t.colLabels.length) :
    ∃ v, getCell t.cells pr pc = some v := by
  obtain ⟨row, hrow, hlen⟩ := exists_row_of_wf hwf hpr
  have h : pc < row.length := by omega
  refine ⟨row[pc], ?_⟩
  rw [getCell, hrow]
  exact List.getElem?_eq_getElem h

theorem getCell_setCell_self {cells : List (List Value)} {pr pc : Nat}
    {row : List Value} (hrow : cells[pr]? = some row) (hpc : pc < row.length)
    (v : Value) : getCell (setCell cells pr pc v) pr pc = some v := by
  have hpr : pr < cells.length := by
    by_contra h
    rw [List.getElem?_eq_none (by omega)] at hrow
    cases hrow
  rw [setCell, hrow, getCell]
  rw [List.getElem?_set_eq_of_lt _ hpr]
  exact List.getElem?_set_eq_of_lt v hpc

/- ### Concrete stores taken from the test suite -/

/-- The frame of `test_at_frame_raises_key_error`:
`DataFrame({0: [1, 2, 3]}, index=[3, 2, 1])`. -/
def keyErrorFrame : Table :=
  { rowLabels := [.int 3, .int 2, .int 1]
    colLabels := [.int 0]
    colKinds := [.intKind]
    cells := [[.intV 1], [.intV 2], [.intV 3]] }

/-- The frame of `test_at_with_duplicate_axes_requires_scalar_lookup`:
a 3-by-2 frame with both columns named "A" (the numeric cell contents are
immaterial to the behaviour under test). -/
def dupColFrame : Table :=
  { rowLabels := [.int 0, .int 1, .int 2]
    colLabels := [.str "A", .str "A"]
    colKinds := [.intKind, .intKind]
    cells := [[.intV 10, .intV 11], [.intV 20, .intV 21], [.intV 30, .intV 31]] }

/-- The series of `test_at_setitem_mixed_index_assignment` and
`test_at_getitem_mixed_index_no_fallback`:
`Series([1, 2, 3, 4, 5], index=["a", "b", "c", 1, 2])`. -/
def mixedSeries : Series :=
  { labels := [.str "a", .str "b", .str "c", .int 1, .int 2]
    kind := .intKind
    values := [.intV 1, .intV 2, .intV 3, .intV 4, .intV 5] }

/-- The series of `test_at_series_raises_key_error2`:
`Series([1, 2, 3], index=list("abc"))`. -/
def strSeries : Series :=
  { labels := [.str "a", .str "b", .str "c"]
    kind := .intKind
    values := [.intV 1, .intV 2, .intV 3] }

/-- Whether a label is a text label. -/
def Label.isStr : Label → Bool
  | .str _ => true
  | .int _ => false

/- ### Claim theorems for the scalar accessor -/

/-- Claim C1: for every label tuple that resolves to exactly one cell of a
wellformed store, the scalar accessor's get returns the same value as the
general label indexer's lookup of the same labels (the indexer's result being
the one-element list holding that cell), both for a table and for a series:
`.at`-style and `.loc`-style access are interchangeable on any request
identifying a single cell. -/
theorem at_loc_scalar_agree :
    (∀ (t : Table) (r c : Label), Wellformed t →
      (positionsOf t.rowLabels r).length = 1 →
      (positionsOf t.colLabels c).length = 1 →
      ∃ v, atGet t [.label r, .label c] = .ok v ∧
        locLookup t r c = .ok [v]) ∧
    (∀ (s : Series) (l : Label), WellformedS s →
      (positionsOf s.labels l).length = 1 →
      ∃ v, atGetS s [.label l] = .ok v ∧ locLookupS s l = .ok [v]) := by
  constructor
  · intro t r c hwf hr hc
    obtain ⟨pr, hpr⟩ := List.length_eq_one.mp hr
    obtain ⟨pc, hpc⟩ := List.length_eq_one.mp hc
    have hprlt : pr < t.rowLabels.length :=
      mem_positionsOf_lt (by rw [hpr]; exact List.mem_singleton_self pr)
    have hpclt : pc < t.colLabels.length :=
      mem_positionsOf_lt (by rw [hpc]; exact List.mem_singleton_self pc)
    obtain ⟨v, hv⟩ := getCell_eq_of_wf hwf hprlt hpclt
    refine ⟨v, ?_, ?_⟩
    · simp [atGet, atResolve, hpr, hpc, hv]
    · simp [locLookup, hpr, hpc, hv]
  · intro s l hwf hl
    obtain ⟨p, hp⟩ := List.length_eq_one.mp hl
    have hplt : p < s.labels.length :=
      mem_positionsOf_lt (by rw [hp]; exact List.mem_singleton_self p)
    have hvlt : p < s.values.length := by rw [WellformedS] at hwf; omega
    refine ⟨s.values[p], ?_, ?_⟩
    · simp [atGetS, atResolveS, hp, List.getElem?_eq_getElem hvlt]
    · simp [locLookupS, hp, List.getElem?_eq_getElem hvlt]

/-- Witness for C1: on the frame of `test_at_frame_raises_key_error`
(`DataFrame({0: [1, 2, 3]}, index=[3, 2, 1])`), `at[1, 0]` and `loc[1, 0]`
both yield the cell value 3. -/
theorem at_loc_scalar_agree_witness :
    ∃ v, atGet keyErrorFrame [.label (.int 1), .label (.int 0)] = .ok v ∧
      locLookup keyErrorFrame (.int 1) (.int 0) = .ok [v] :=
  at_loc_scalar_agree.1 keyErrorFrame (.int 1) (.int 0)
    ⟨by decide, by decide, by decide⟩ (by decide) (by decide)

/-- Claim C2: a lookup whose label is absent from its axis fails, on the
scalar accessor and on the general label indexer alike, with a NotFound-kind
error carrying one and the same message, and that message textually contains
the missing label; stated for a missing row label, a missing column label
(with the row present), and the series case. -/
theorem at_loc_notfound_agree :
    (∀ (t : Table) (r c : Label), r ∉ t.rowLabels →
      ∃ m, atGet t [.label r, .label c] = .error (.notFound m) ∧
        locLookup t r c = .error (.notFound m) ∧
        ∃ pre post, m = pre ++ reprLabel r ++ post) ∧
    (∀ (t : Table) (r c : Label), r ∈ t.rowLabels → c ∉ t.colLabels →
      ∃ m, atGet t [.label r, .label c] = .error (.notFound m) ∧
        locLookup t r c = .error (.notFound m) ∧
        ∃ pre post, m = pre ++ reprLabel c ++ post) ∧
    (∀ (s : Series) (l : Label), l ∉ s.labels →
      ∃ m, atGetS s [.label l] = .error (.notFound m) ∧
        locLookupS s l = .error (.notFound m) ∧
        ∃ pre post, m = pre ++ reprLabel l ++ post) := by
  refine ⟨?_, ?_, ?_⟩
  · intro t r c hr
    have h0 : positionsOf t.rowLabels r = [] := positionsOf_eq_nil.mpr hr
    refine ⟨reprLabel r, ?_, ?_, "", "", by simp⟩
    · simp [atGet, atResolve, h0]
    · simp [locLookup, h0]
  · intro t r c hr hc
    have h0 : positionsOf t.colLabels c = [] := positionsOf_eq_nil.mpr hc
    have h1 : positionsOf t.rowLabels r ≠ [] := fun h =>
      (positionsOf_eq_nil.mp h) hr
    obtain ⟨a, as, ha⟩ := List.exists_cons_of_ne_nil h1
    refine ⟨reprLabel c, ?_, ?_, "", "", by simp⟩
    · simp [atGet, atResolve, ha, h0]
    · simp [locLookup, ha, h0]
  · intro s l hl
    have h0 : positionsOf s.labels l = [] := positionsOf_eq_nil.mpr hl
    refine ⟨reprLabel l, ?_, ?_, "", "", by simp⟩
    · simp [atGetS, atResolveS, h0]
    · simp [locLookupS, h0]

/-- Witness for C2: on the frame of `test_at_frame_raises_key_error`, the
lookup `["a", 0]` (row label "a" absent) fails on both access paths with the
same NotFound error, whose message contains the label text "a". -/
theorem at_loc_notfound_agree_witness :
    ∃ m, atGet keyErrorFrame [.label (.str "a"), .label (.int 0)] =
        .error (.notFound m) ∧
      locLookup keyErrorFrame (.str "a") (.int 0) = .error (.notFound m) ∧
      ∃ pre post, m = pre ++ reprLabel (.str "a") ++ post :=
  at_loc_notfound_agree.1 keyErrorFrame (.str "a") (.int 0) (by decide)

theorem atResolve_nonscalar (t : Table) (sels : List Selector)
    (h : ∃ s ∈ sels, s.isScalar = false) :
    atResolve t sels = .error (.invalidScalarAccess invalidMsg) := by
  obtain ⟨s, hs, hns⟩ := h
  rcases sels with _ | ⟨a, _ | ⟨b, _ | ⟨c, rest⟩⟩⟩
  · simp at hs
  · cases a with
    | label l =>
        simp only [List.mem_singleton] at hs
        subst hs
        simp [Selector.isScalar] at hns
    | list ls => rfl
    | slice => rfl
  · cases a with
    | label la =>
        cases b with
        | label lb =>
            simp only [List.mem_cons, List.not_mem_nil, or_false] at hs
            rcases hs with rfl | rfl <;> simp [Selector.isScalar] at hns
        | list ls => rfl
        | slice => rfl
    | list ls => cases b <;> rfl
    | slice => cases b <;> rfl
  · cases a <;> cases b <;> rfl

/-- Claim C3: a non-scalar selector (a list of labels, a slice/full-axis
selector, or any selector list other than one scalar label per axis) handed
to the scalar accessor makes both the read path and the write path fail with
InvalidScalarAccess carrying the message "Invalid call for scalar access",
and the failed write leaves the store unmutated. -/
theorem at_nonscalar_rejected (t : Table) (sels : List Selector) (v : Value)
    (h : ∃ s ∈ sels, s.isScalar = false) :
    atGet t sels = .error (.invalidScalarAccess invalidMsg) ∧
    atSet t sels v = .error (.invalidScalarAccess invalidMsg) ∧
    atSetD t sels v = t ∧
    invalidMsg = "Invalid call for scalar access" := by
  have hres := atResolve_nonscalar t sels h
  refine ⟨?_, ?_, ?_, rfl⟩
  · simp [atGet, hres]
  · simp [atSet, hres]
  · simp [atSetD, atSet, hres]

/-- Witness for C3: `df.at[1, ["A"]]` on the duplicate-column frame of
`test_at_with_duplicate_axes_requires_scalar_lookup` is rejected on read and
write, and the write leaves the frame unchanged. -/
theorem at_nonscalar_rejected_witness :
    atGet dupColFrame [.label (.int 1), .list [.str "A"]] =
      .error (.invalidScalarAccess invalidMsg) ∧
    atSet dupColFrame [.label (.int 1), .list [.str "A"]] (.intV 1) =
      .error (.invalidScalarAccess invalidMsg) ∧
    atSetD dupColFrame [.label (.int 1), .list [.str "A"]] (.intV 1) =
      dupColFrame ∧
    invalidMsg = "Invalid call for scalar access" :=
  at_nonscalar_rejected dupColFrame [.label (.int 1), .list [.str "A"]]
    (.intV 1) (by decide)

/-- Claim C4: on a table whose column axis carries the same column name more
than once, scalar-accessor get and set with that duplicated column name (and
a present row label) fail with InvalidScalarAccess, "Invalid call for scalar
access", on the read path and the write path alike, the write leaving the
store unmutated: the accessor never silently picks the first of several
identically-named columns. -/
theorem at_duplicate_column_rejected (t : Table) (r c : Label) (v : Value)
    (hr : r ∈ t.rowLabels) (hc : 2 ≤ (positionsOf t.colLabels c).length) :
    atGet t [.label r, .label c] = .error (.invalidScalarAccess invalidMsg) ∧
    atSet t [.label r, .label c] v =
      .error (.invalidScalarAccess invalidMsg) ∧
    atSetD t [.label r, .label c] v = t ∧
    invalidMsg = "Invalid call for scalar access" := by
  have h1 : positionsOf t.rowLabels r ≠ [] := fun h =>
    (positionsOf_eq_nil.mp h) hr
  obtain ⟨a, as, ha⟩ := List.exists_cons_of_ne_nil h1
  obtain ⟨c1, cs, hc1⟩ : ∃ c1 cs, positionsOf t.colLabels c = c1 :: cs := by
    rcases hx : positionsOf t.colLabels c with _ | ⟨c1, cs⟩
    · rw [hx] at hc; simp at hc
    · exact ⟨c1, cs, rfl⟩
  obtain ⟨c2, cs2, hc2⟩ : ∃ c2 cs2, cs = c2 :: cs2 := by
    rcases cs with _ | ⟨c2, cs2⟩
    · rw [hc1] at hc; simp at hc
    · exact ⟨c2, cs2, rfl⟩
  subst hc2
  have hres : atResolve t [.label r, .label c] =
      .error (.invalidScalarAccess invalidMsg) := by
    rcases as with _ | ⟨a2, as2⟩ <;> simp [atResolve, ha, hc1]
  refine ⟨?_, ?_, ?_, rfl⟩
  · simp [atGet, hres]
  · simp [atSet, hres]
  · simp [atSetD, atSet, hres]

/-- Witness for C4: on the duplicate-column frame (columns ["A", "A"]),
`at[1, "A"]` is rejected with "Invalid call for scalar access" on read and
write, leaving the frame unchanged. -/
theorem at_duplicate_column_rejected_witness :
    atGet dupColFrame [.label (.int 1), .label (.str "A")] =
      .error (.invalidScalarAccess invalidMsg) ∧
    atSet dupColFrame [.label (.int 1), .label (.str "A")] (.intV 1) =
      .error (.invalidScalarAccess invalidMsg) ∧
    atSetD dupColFrame [.label (.int 1), .label (.str "A")] (.intV 1) =
      dupColFrame ∧
    invalidMsg = "Invalid call for scalar access" :=
  at_duplicate_column_rejected dupColFrame (.int 1) (.str "A") (.intV 1)
    (by decide) (by decide)

/-- Claim C5: label resolution never coerces across label kinds.  On the
mixed-label series (labels ["a", "b", "c", 1, 2]) the text label "a" resolves
to position 0 and the integer label 1 to position 3; on any series whose
labels are all text, and on any table whose row labels are all text, an
integer lookup key raises NotFound echoing the key, exactly as the general
label indexer does. -/
theorem at_no_type_coercion :
    (atResolveS mixedSeries [.label (.str "a")] = .ok 0 ∧
     atGetS mixedSeries [.label (.str "a")] = .ok (.intV 1)) ∧
    (atResolveS mixedSeries [.label (.int 1)] = .ok 3 ∧
     atGetS mixedSeries [.label (.int 1)] = .ok (.intV 4)) ∧
    (∀ (s : Series) (n : Int), s.labels.all Label.isStr = true →
      atGetS s [.label (.int n)] = .error (.notFound (toString n)) ∧
      locLookupS s (.int n) = .error (.notFound (toString n))) ∧
    (∀ (t : Table) (c : Label) (n : Int),
      t.rowLabels.all Label.isStr = true →
      atGet t [.label (.int n), .label c] =
        .error (.notFound (toString n)) ∧
      locLookup t (.int n) c = .error (.notFound (toString n))) := by
  refine ⟨⟨by rfl, by rfl⟩, ⟨by rfl, by rfl⟩, ?_, ?_⟩
  · intro s n hall
    have hmem : Label.int n ∉ s.labels := by
      intro hmem
      have := List.all_eq_true.mp hall _ hmem
      simp [Label.isStr] at this
    have h0 : positionsOf s.labels (.int n) = [] :=
      positionsOf_eq_nil.mpr hmem
    constructor
    · simp [atGetS, atResolveS, h0, reprLabel]
    · simp [locLookupS, h0, reprLabel]
  · intro t c n hall
    have hmem : Label.int n ∉ t.rowLabels := by
      intro hmem
      have := List.all_eq_true.mp hall _ hmem
      simp [Label.isStr] at this
    have h0 : positionsOf t.rowLabels (.int n) = [] :=
      positionsOf_eq_nil.mpr hmem
    constructor
    · simp [atGet, atResolve, h0, reprLabel]
    · simp [locLookup, h0, reprLabel]

/-- Witness for C5: on the all-string series of
`test_at_series_raises_key_error2` (labels ["a", "b", "c"]), the integer key
0 raises NotFound with message "0" on the scalar accessor and on the general
indexer alike. -/
theorem at_no_type_coercion_witness :
    atGetS strSeries [.label (.int 0)] =
      .error (.notFound (toString (0 : Int))) ∧
    locLookupS strSeries (.int 0) =
      .error (.notFound (toString (0 : Int))) :=
  at_no_type_coercion.2.2.1 strSeries 0 (by decide)

/-- Claim C6: read-your-write.  For every row/column label pair resolving to
exactly one cell of a wellformed store and every value, a scalar-accessor set
of that value followed by a scalar-accessor get at the same labels returns
that value. -/
theorem at_read_your_write (t : Table) (r c : Label) (v : Value)
    (hwf : Wellformed t)
    (hr : (positionsOf t.rowLabels r).length = 1)
    (hc : (positionsOf t.colLabels c).length = 1) :
    ∃ t2, atSet t [.label r, .label c] v = .ok t2 ∧
      atGet t2 [.label r, .label c] = .ok v := by
  obtain ⟨pr, hpr⟩ := List.length_eq_one.mp hr
  obtain ⟨pc, hpc⟩ := List.length_eq_one.mp hc
  have hprlt : pr < t.rowLabels.length :=
    mem_positionsOf_lt (by rw [hpr]; exact List.mem_singleton_self pr)
  have hpclt : pc < t.colLabels.length :=
    mem_positionsOf_lt (by rw [hpc]; exact List.mem_singleton_self pc)
  obtain ⟨row, hrow, hlen⟩ := exists_row_of_wf hwf hprlt
  refine ⟨storeSet t pr pc v, ?_, ?_⟩
  · simp [atSet, atResolve, hpr, hpc]
  · have hcell : getCell (storeSet t pr pc v).cells pr pc = some v := by
      show getCell (setCell t.cells pr pc v) pr pc = some v
      exact getCell_setCell_self hrow (by omega) v
    have hres : atResolve (storeSet t pr pc v) [.label r, .label c] =
        .ok (pr, pc) := by
      simp [atResolve, storeSet, hpr, hpc]
    simp [atGet, hres, hcell]

/-- Witness for C6: on the frame of `test_at_frame_raises_key_error`, writing
7 at `[1, 0]` and reading `[1, 0]` back yields 7. -/
theorem at_read_your_write_witness :
    ∃ t2, atSet keyErrorFrame [.label (.int 1), .label (.int 0)] (.intV 7) =
        .ok t2 ∧
      atGet t2 [.label (.int 1), .label (.int 0)] = .ok (.intV 7) :=
  at_read_your_write keyErrorFrame (.int 1) (.int 0) (.intV 7)
    ⟨by decide, by decide, by decide⟩ (by decide) (by decide)

/-- Claim C7: timezone widening.  On a wellformed series whose declared value
kind is the naive temporal kind, writing a timezone-aware temporal value at a
uniquely-resolving label succeeds, promotes the declared kind to the
generic/object kind, and a subsequent get returns exactly the written
timezone-aware value, neither truncated nor coerced to a naive temporal. -/
theorem at_timezone_widening (s : Series) (l : Label) (time off : Int)
    (hwf : WellformedS s) (hk : s.kind = .naiveTemporal)
    (hl : (positionsOf s.labels l).length = 1) :
    ∃ s2, atSetS s [.label l] (.awareT time off) = .ok s2 ∧
      s2.kind = .objectKind ∧
      atGetS s2 [.label l] = .ok (.awareT time off) := by
  obtain ⟨p, hp⟩ := List.length_eq_one.mp hl
  have hplt : p < s.labels.length :=
    mem_positionsOf_lt (by rw [hp]; exact List.mem_singleton_self p)
  have hvlt : p < s.values.length := by rw [WellformedS] at hwf; omega
  refine ⟨⟨s.labels, widenKind s.kind (.awareT time off),
    s.values.set p (.awareT time off)⟩, ?_, ?_, ?_⟩
  · simp [atSetS, atResolveS, hp]
  · simp [hk, widenKind, canRepresent]
  · have hv : (s.values.set p (.awareT time off))[p]? =
        some (.awareT time off) :=
      List.getElem?_set_eq_of_lt _ hvlt
    simp [atGetS, atResolveS, hp, hv]

/-- The single-cell naive-temporal column of `test_at_timezone`
(`DataFrame({"foo": [datetime(2000, 1, 1)]})`, viewed as the one-column
series the spec scenario describes; the temporal payload is a chosen epoch
encoding of 2000-01-01). -/
def naiveSeries : Series :=
  { labels := [.int 0], kind := .naiveTemporal, values := [.naiveT 946684800] }

/-- Witness for C7: writing an aware temporal (2000-01-02 UTC, offset 0) at
label 0 of the naive-temporal series promotes the kind to the object kind and
reads back exactly the aware value. -/
theorem at_timezone_widening_witness :
    ∃ s2, atSetS naiveSeries [.label (.int 0)] (.awareT 946771200 0) =
        .ok s2 ∧
      s2.kind = .objectKind ∧
      atGetS s2 [.label (.int 0)] = .ok (.awareT 946771200 0) :=
  at_timezone_widening naiveSeries (.int 0) 946771200 0 (by rfl)
    (by rfl) (by decide)

/- ### The parquet shim (`pandas/io/parquet.py`) -/

/-- The destination/source argument of the shim, as classified by
`pandas.io.common.is_fsspec_url` and `os.path.isdir` (both external to the
repository): an in-memory buffer / file object, a plain local file path, a
local directory path, or a remote-filesystem (fsspec) URL. -/
inductive PqPath where
  | buffer
  | localFile (s : String)
  | localDir (s : String)
  | fsspecUrl (s : String)
deriving DecidableEq, Repr

/-- `is_fsspec_url(path)`: true exactly for remote-filesystem URLs. -/
def is_fsspec_url : PqPath → Bool
  | .fsspecUrl _ => true
  | _ => false

/-- `isinstance(path, str)` after `stringify_path`: every path except a file
object / buffer is a string. -/
def PqPath.isStr : PqPath → Bool
  | .buffer => false
  | _ => true

/-- `os.path.isdir(path)`. -/
def PqPath.isDir : PqPath → Bool
  | .localDir _ => true
  | _ => false

/-- One name of `df.index.names`: `None`, a string, or a non-string value. -/
inductive IndexName where
  | noneName
  | strName (s : String)
  | otherName
deriving DecidableEq, Repr

/-- `isinstance(name, str) if name is not None`, the per-name condition of
`BaseImpl.validate_dataframe`. -/
def IndexName.strOrNone : IndexName → Bool
  | .noneName => true
  | .strName _ => true
  | .otherName => false

/-- The dataframe attributes `BaseImpl.validate_dataframe` inspects:
`df.columns.inferred_type` and `df.index.names`. -/
structure PdDataFrame where
  columnsInferredType : String
  indexNames : List IndexName
deriving DecidableEq, Repr

/-- The argument handed to a parquet write: a dataframe, or any other value
(`not isinstance(df, DataFrame)`). -/
inductive WriteArg where
  | df (d : PdDataFrame)
  | notDf
deriving DecidableEq, Repr

/-- `BaseImpl.validate_dataframe` (parquet.py lines 52-67): reject a
non-DataFrame argument, non-string column names (inferred column type other
than "string" or "empty"), and non-None index level names that are not
strings, in that order. -/
def validate_dataframe : WriteArg → Except String Unit
  | .notDf => .error "to_parquet only supports IO with DataFrames"
  | .df d =>
      if ¬(d.columnsInferredType = "string" ∨ d.columnsInferredType = "empty")
      then .error "parquet must have string column names"
      else if ¬(d.indexNames.all IndexName.strOrNone = true) then
        .error "Index level names must be strings"
      else .ok ()

/-- The engine-level write call `PyArrowImpl.write` ends in. -/
inductive PaWriteAction where
  | writeToDataset
  | writeTable
deriving DecidableEq, Repr

/-- The storage-options error message of `PyArrowImpl.write` and
`FastParquetImpl.write`. -/
def writeStorageMsg : String :=
  "storage_options passed with file object or non-fsspec file path"

/-- The storage-options error message of `PyArrowImpl.read`. -/
def readStorageMsg : String :=
  "storage_options passed with buffer or non-fsspec filepath"

/-- `PyArrowImpl.write` (parquet.py lines 88-132): validate the dataframe;
then, unless the destination is an fsspec URL without an explicit filesystem
kwarg, reject non-empty storage options; finally call `write_to_dataset`
when partition columns are given, else `write_table`.  `storageOptions` is
whether `storage_options` is truthy (a non-empty dict); `filesystemKw` is
whether a "filesystem" kwarg was supplied. -/
def pyarrow_write (arg : WriteArg) (path : PqPath)
    (storageOptions filesystemKw : Bool)
    (partitionCols : Option (List String)) : Except String PaWriteAction :=
  match validate_dataframe arg with
  | .error e => .error e
  | .ok _ =>
      if is_fsspec_url path && !filesystemKw then
        match partitionCols with
        | some _ => .ok .writeToDataset
        | none => .ok .writeTable
      else if storageOptions then .error writeStorageMsg
      else
        match partitionCols with
        | some _ => .ok .writeToDataset
        | none => .ok .writeTable

/-- How `PyArrowImpl.read` reaches `read_table`. -/
inductive PaReadPath where
  | viaFilesystem
  | viaHandle
  | direct
deriving DecidableEq, Repr

/-- `PyArrowImpl.read` (parquet.py lines 134-163): with an fsspec URL and no
filesystem kwarg, build an fsspec filesystem; otherwise reject non-empty
storage options; then open through `get_handle` only for a string path that
is not a directory and with no filesystem at hand. -/
def pyarrow_read (path : PqPath) (storageOptions filesystemKw : Bool) :
    Except String PaReadPath :=
  if is_fsspec_url path && !filesystemKw then .ok .viaFilesystem
  else if storageOptions then .error readStorageMsg
  else if !(filesystemKw || is_fsspec_url path) &&
      (path.isStr && !path.isDir) then .ok .viaHandle
  else .ok .direct

/-- The error message of `FastParquetImpl.write` when both a `partition_on`
kwarg and `partition_cols` are supplied (parquet.py lines 190-194). -/
def partitionBothMsg : String :=
  "Cannot use both partition_on and " ++
  "partition_cols. Use partition_cols for partitioning data"

/-- `FastParquetImpl.write` (parquet.py lines 175-223): validate the
dataframe; reject supplying both a `partition_on` kwarg and `partition_cols`;
then, unless the destination is an fsspec URL, reject non-empty storage
options; finally call the engine's write. -/
def fastparquet_write (arg : WriteArg) (path : PqPath)
    (storageOptions partitionOnKw : Bool)
    (partitionCols : Option (List String)) : Except String Unit :=
  match validate_dataframe arg with
  | .error e => .error e
  | .ok _ =>
      if partitionOnKw && partitionCols.isSome then .error partitionBothMsg
      else if is_fsspec_url path then .ok ()
      else if storageOptions then .error writeStorageMsg
      else .ok ()

/-- How `FastParquetImpl.read` opens its source. -/
inductive FpReadPath where
  | viaOpenWith
  | viaHandle
  | direct
deriving DecidableEq, Repr

/-- `FastParquetImpl.read` (parquet.py lines 225-249): with an fsspec URL,
open through fsspec (consuming the storage options); otherwise open a string
non-directory path through `get_handle`, or hand anything else straight to
`ParquetFile`.  Note: on this path the function never inspects
`storage_options` again — no error is raised for non-empty storage options
with a non-fsspec source. -/
def fastparquet_read (path : PqPath) (storageOptions : Bool) :
    Except String FpReadPath :=
  if is_fsspec_url path then .ok .viaOpenWith
  else if path.isStr && !path.isDir then .ok .viaHandle
  else .ok .direct

/-- The environment `get_engine` runs against: the value of the
`io.parquet.engine` option, and for each engine whether constructing its
`Impl` succeeds (its optional import resolves) together with the ImportError
message seen when it does not. -/
structure EngineEnv where
  configEngine : String
  pyarrowOk : Bool
  pyarrowErr : String
  fastparquetOk : Bool
  fastparquetErr : String
deriving DecidableEq, Repr

/-- The outcome of `get_engine`: a constructed engine (named), an
ImportError, or a ValueError. -/
inductive EngineResult where
  | engine (name : String)
  | importError (msg : String)
  | valueError (msg : String)
deriving DecidableEq, Repr

/-- `PyArrowImpl()` construction: succeeds or raises ImportError. -/
def mkPyArrow (env : EngineEnv) : Except String String :=
  if env.pyarrowOk then .ok "pyarrow" else .error env.pyarrowErr

/-- `FastParquetImpl()` construction: succeeds or raises ImportError. -/
def mkFastParquet (env : EngineEnv) : Except String String :=
  if env.fastparquetOk then .ok "fastparquet" else .error env.fastparquetErr

/-- The fixed prefix of the ImportError `get_engine` raises when no engine
loads (parquet.py lines 33-41). -/
def noEngineMsg : String :=
  "Unable to find a usable engine; " ++
  "tried using: \x27pyarrow\x27, \x27fastparquet\x27.\n" ++
  "A suitable version of " ++
  "pyarrow or fastparquet is required for parquet " ++
  "support.\n" ++
  "Trying to import the above resulted in these errors:"

/-- The ValueError message for an unknown engine name (parquet.py line 48). -/
def badEngineMsg : String :=
  "engine must be one of \x27pyarrow\x27, \x27fastparquet\x27"

/-- `get_engine` (parquet.py lines 17-48): "auto" is first replaced by the
`io.parquet.engine` option; a remaining "auto" tries `PyArrowImpl` then
`FastParquetImpl`, returning the first that constructs and otherwise raising
an ImportError that appends every collected failure reason; the names
"pyarrow" and "fastparquet" construct the respective engine directly; any
other name is a ValueError. -/
def get_engine (env : EngineEnv) (engine : String) : EngineResult :=
  let eng := if engine = "auto" then env.configEngine else engine
  if eng = "auto" then
    match mkPyArrow env with
    | .ok e => .engine e
    | .error e1 =>
        match mkFastParquet env with
        | .ok e => .engine e
        | .error e2 =>
            .importError (noEngineMsg ++ (("\n - " ++ e1) ++ ("\n - " ++ e2)))
  else if eng = "pyarrow" then
    match mkPyArrow env with
    | .ok e => .engine e
    | .error e1 => .importError e1
  else if eng = "fastparquet" then
    match mkFastParquet env with
    | .ok e => .engine e
    | .error e2 => .importError e2
  else .valueError badEngineMsg

/- ### Claim theorems for the parquet shim -/

theorem pyarrow_write_error_cases {arg : WriteArg} {path : PqPath}
    {sOpts fsKw : Bool} {pc : Option (List String)} {m : String}
    (h : pyarrow_write arg path sOpts fsKw pc = .error m) :
    validate_dataframe arg = .error m ∨ m = writeStorageMsg := by
  unfold pyarrow_write at h
  rcases hv : validate_dataframe arg with e | u <;> rw [hv] at h
  · simp at h
    subst h
    exact Or.inl rfl
  · right
    split_ifs at h with h1 h2 <;>
      first
        | ((injection h with h4) <;> exact h4.symm)
        | (rcases pc with _ | p <;> simp at h)

theorem fastparquet_write_error_cases {arg : WriteArg} {path : PqPath}
    {sOpts pok : Bool} {pc : Option (List String)} {m : String}
    (h : fastparquet_write arg path sOpts pok pc = .error m) :
    validate_dataframe arg = .error m ∨ m = partitionBothMsg ∨
      m = writeStorageMsg := by
  unfold fastparquet_write at h
  rcases hv : validate_dataframe arg with e | u <;> rw [hv] at h
  · simp at h
    subst h
    exact Or.inl rfl
  · right
    split_ifs at h with h1 h2 h3 <;>
      (injection h with h4) <;>
        first
          | exact Or.inl h4.symm
          | exact Or.inr h4.symm

/-- Claim C8: engine selection.  With the `io.parquet.engine` option left at
"auto", `get_engine "auto"` tries pyarrow then fastparquet in that fixed
order, returns the first that constructs, and when neither loads raises an
ImportError whose message contains the failure reason collected from each
tried engine; any engine name other than "auto", "pyarrow" and "fastparquet"
raises a ValueError. -/
theorem get_engine_selection (env : EngineEnv) :
    (env.configEngine = "auto" →
      (env.pyarrowOk = true → get_engine env "auto" = .engine "pyarrow") ∧
      (env.pyarrowOk = false → env.fastparquetOk = true →
        get_engine env "auto" = .engine "fastparquet") ∧
      (env.pyarrowOk = false → env.fastparquetOk = false →
        ∃ m, get_engine env "auto" = .importError m ∧
          (∃ a b, m = a ++ env.pyarrowErr ++ b) ∧
          (∃ a b, m = a ++ env.fastparquetErr ++ b))) ∧
    (∀ e : String, e ≠ "auto" → e ≠ "pyarrow" → e ≠ "fastparquet" →
      get_engine env e = .valueError badEngineMsg) := by
  constructor
  · intro hcfg
    refine ⟨?_, ?_, ?_⟩
    · intro hp
      simp [get_engine, hcfg, mkPyArrow, hp]
    · intro hp hf
      simp [get_engine, hcfg, mkPyArrow, mkFastParquet, hp, hf]
    · intro hp hf
      refine ⟨noEngineMsg ++ (("\n - " ++ env.pyarrowErr) ++
        ("\n - " ++ env.fastparquetErr)), ?_, ?_, ?_⟩
      · simp [get_engine, hcfg, mkPyArrow, mkFastParquet, hp, hf]
      · exact ⟨noEngineMsg ++ "\n - ", "\n - " ++ env.fastparquetErr,
          by simp [String.append_assoc]⟩
      · exact ⟨((noEngineMsg ++ "\n - ") ++ env.pyarrowErr) ++ "\n - ", "",
          by simp [String.append_assoc]⟩
  · intro e h1 h2 h3
    simp [get_engine, h1, h2, h3]

/-- The environment of a bare interpreter: default configuration, neither
parquet engine importable. -/
def noEngineEnv : EngineEnv :=
  ⟨"auto", false, "Missing optional dependency pyarrow", false,
    "Missing optional dependency fastparquet"⟩

/-- Witness for C8: with neither engine importable, `get_engine "auto"`
raises an ImportError whose message carries both failure reasons. -/
theorem get_engine_selection_witness :
    ∃ m, get_engine noEngineEnv "auto" = .importError m ∧
      (∃ a b, m = a ++ noEngineEnv.pyarrowErr ++ b) ∧
      (∃ a b, m = a ++ noEngineEnv.fastparquetErr ++ b) :=
  ((get_engine_selection noEngineEnv).1 rfl).2.2 rfl rfl

/-- Counterexample for C9: `FastParquetImpl.read` with a plain local file
path and non-empty storage options raises nothing — it opens the file through
`get_handle` and silently ignores the options, contradicting the claim that
both engines raise on read. -/
theorem fastparquet_read_ignores_storage_options :
    fastparquet_read (.localFile "data.parquet") true = .ok .viaHandle := rfl

/-- Claim C9 (amended): with non-empty storage options and a destination or
source that is not an fsspec URL, both engines' write paths (given a
dataframe passing validation, and for fastparquet no conflicting
partition_on kwarg) and pyarrow's read path raise a ValueError, while
fastparquet's read path raises nothing and silently ignores the options. -/
theorem storage_options_nonfsspec (arg : WriteArg) (path : PqPath)
    (fsKw : Bool) (pc : Option (List String))
    (hv : validate_dataframe arg = .ok ())
    (hp : is_fsspec_url path = false) :
    pyarrow_write arg path true fsKw pc = .error writeStorageMsg ∧
    fastparquet_write arg path true false pc = .error writeStorageMsg ∧
    pyarrow_read path true fsKw = .error readStorageMsg ∧
    ∃ rp, fastparquet_read path true = .ok rp := by
  refine ⟨?_, ?_, ?_, ?_⟩
  · simp [pyarrow_write, hv, hp]
  · simp [fastparquet_write, hv, hp]
  · simp [pyarrow_read, hp]
  · rcases path with _ | s | s | s
    · exact ⟨.direct, rfl⟩
    · exact ⟨.viaHandle, rfl⟩
    · exact ⟨.direct, rfl⟩
    · simp [is_fsspec_url] at hp

/-- A dataframe passing all of `validate_dataframe`'s checks: string column
names, one named and one unnamed index level. -/
def okFrame : WriteArg :=
  .df ⟨"string", [.strName "idx", .noneName]⟩

/-- Witness for C9 (amended): writing the valid dataframe to a local file
path with storage options raises on both engines' write and on pyarrow's
read, while fastparquet's read succeeds. -/
theorem storage_options_nonfsspec_witness :
    pyarrow_write okFrame (.localFile "df.parquet") true false none =
      .error writeStorageMsg ∧
    fastparquet_write okFrame (.localFile "df.parquet") true false none =
      .error writeStorageMsg ∧
    pyarrow_read (.localFile "df.parquet") true false =
      .error readStorageMsg ∧
    ∃ rp, fastparquet_read (.localFile "df.parquet") true = .ok rp :=
  storage_options_nonfsspec okFrame (.localFile "df.parquet") false none
    (by rfl) (by rfl)

/-- Claim C10: every parquet write, under either engine, validates the
dataframe first: the validation accepts exactly the arguments that are
dataframes with string (or no) column names and string-or-None index level
names; when it rejects, both engines' writes stop with that ValueError
before any engine write call; and an argument passing the validation is
never rejected with any of the three validation messages. -/
theorem write_validates_dataframe_first (arg : WriteArg) (path : PqPath)
    (sOpts fsKw pok : Bool) (pc : Option (List String)) :
    (validate_dataframe arg = .ok () ↔
      ∃ d, arg = .df d ∧
        (d.columnsInferredType = "string" ∨
          d.columnsInferredType = "empty") ∧
        d.indexNames.all IndexName.strOrNone = true) ∧
    (∀ m, validate_dataframe arg = .error m →
      pyarrow_write arg path sOpts fsKw pc = .error m ∧
      fastparquet_write arg path sOpts pok pc = .error m) ∧
    (validate_dataframe arg = .ok () →
      ∀ m, m ∈ ["to_parquet only supports IO with DataFrames",
          "parquet must have string column names",
          "Index level names must be strings"] →
        pyarrow_write arg path sOpts fsKw pc ≠ .error m ∧
        fastparquet_write arg path sOpts pok pc ≠ .error m) := by
  refine ⟨?_, ?_, ?_⟩
  · cases arg with
    | notDf =>
        constructor
        · intro h; simp [validate_dataframe] at h
        · rintro ⟨d, hd, -, -⟩; cases hd
    | df d =>
        simp only [validate_dataframe]
        constructor
        · intro h
          by_cases h1 : d.columnsInferredType = "string" ∨
            d.columnsInferredType = "empty"
          · by_cases h2 : d.indexNames.all IndexName.strOrNone = true
            · exact ⟨d, rfl, h1, h2⟩
            · simp [h1, h2] at h
          · simp [h1] at h
        · rintro ⟨d2, hd, h1, h2⟩
          injection hd with hd2
          subst hd2
          simp [h1, h2]
  · intro m hm
    constructor
    · simp [pyarrow_write, hm]
    · simp [fastparquet_write, hm]
  · intro hok m hm
    constructor
    · intro hcon
      rcases pyarrow_write_error_cases hcon with h | h
      · rw [hok] at h; cases h
      · subst h; exact absurd hm (by decide)
    · intro hcon
      rcases fastparquet_write_error_cases hcon with h | h | h
      · rw [hok] at h; cases h
      · subst h; exact absurd hm (by decide)
      · subst h; exact absurd hm (by decide)

/-- Witness for C10: the frame with string column names and string-or-None
index level names passes validation, and writing it to a buffer is not
rejected with any validation message. -/
theorem write_validates_dataframe_first_witness :
    validate_dataframe okFrame = .ok () ∧
    (∀ m, m ∈ ["to_parquet only supports IO with DataFrames",
        "parquet must have string column names",
        "Index level names must be strings"] →
      pyarrow_write okFrame .buffer false false none ≠ .error m ∧
      fastparquet_write okFrame .buffer false false none ≠ .error m) :=
  ⟨by rfl,
    (write_validates_dataframe_first okFrame .buffer false false false
      none).2.2 (by rfl)⟩

end PandasSpec
